import Mathlib

/-!
Shallow embedding of the coding-assistant engine (a single C translation unit,
src/.engine/coderabbitai.cpp) and verification of its specification.

Modelling conventions:
- C strings (char pointers) that may be NULL are `Option String`; a non-null
  string is `some s`.
- The pattern array plus its `count` field are a `List CodePattern` holding the
  used prefix, together with the `count` and `capacity` integers kept as `Nat`
  exactly as the code keeps them.
- The `double` complexity field is modelled as `Rat`; the only arithmetic the
  code performs on it is adding the constant CODE_COMPLEXITY_FACTOR = 1.0.
- The blockchain commit (a printf in the code) is modelled as appending an
  entry to an explicit ledger list; the orchestration also records the ordered
  trace of pipeline steps it executes, mirroring the straight-line body of
  orchestrate_coding_session.
-/

/-- C macro CODE_COMPLEXITY_FACTOR (1.0), the fixed increment applied by
analyze_code_complexity. -/
def CODE_COMPLEXITY_FACTOR : Rat := 1

/-- Struct CodePattern: code snippet, language tag, complexity score. -/
structure CodePattern where
  code_snippet : String
  language : String
  complexity : Rat
deriving DecidableEq

/-- Struct CodeMemory: the pattern store. `patterns` is the used prefix of the
backing array, `count` and `capacity` are the integer fields of the struct. -/
structure CodeMemory where
  patterns : List CodePattern
  count : Nat
  capacity : Nat
deriving DecidableEq

/-- Struct CodeWorkbench: one session state. `current_code` and
`suggested_code` start as NULL pointers (`none`). -/
structure CodeWorkbench where
  code_request : String
  current_code : Option String
  suggested_code : Option String
deriving DecidableEq

/-- Reading a possibly-NULL C string; the code only dereferences these pointers
at points where they are provably non-null. -/
def cStr : Option String → String
  | some s => s
  | none => ""

/-- create_code_pattern: allocates a pattern and duplicates the two strings. -/
def create_code_pattern (snippet language : String) (complexity : Rat) : CodePattern :=
  { code_snippet := snippet, language := language, complexity := complexity }

/-- add_pattern_to_memory: if count == capacity the capacity is doubled (and
the array reallocated); then the pattern is stored at index count and count is
incremented. -/
def add_pattern_to_memory (memory : CodeMemory) (pattern : CodePattern) : CodeMemory :=
  let grown :=
    if memory.count = memory.capacity then
      { memory with capacity := memory.capacity * 2 }
    else memory
  { grown with patterns := grown.patterns ++ [pattern], count := grown.count + 1 }

/-- analyze_code_complexity: adds the fixed factor to the complexity field
in place. -/
def analyze_code_complexity (pattern : CodePattern) : CodePattern :=
  { pattern with complexity := pattern.complexity + CODE_COMPLEXITY_FACTOR }

/-- init_code_workbench: duplicates the request, sets current_code and
suggested_code to NULL. -/
def init_code_workbench (request : String) : CodeWorkbench :=
  { code_request := request, current_code := none, suggested_code := none }

/-- update_code_suggestion: frees any previous suggestion and stores a copy of
the new one (last write wins). -/
def update_code_suggestion (workbench : CodeWorkbench) (new_suggestion : String) : CodeWorkbench :=
  { workbench with suggested_code := some new_suggestion }

/-- commit_code_change: if current_code is non-NULL the change is concatenated
at the end; otherwise current_code is set to a copy of the change. -/
def commit_code_change (workbench : CodeWorkbench) (change : String) : CodeWorkbench :=
  match workbench.current_code with
  | some cur => { workbench with current_code := some (cur ++ change) }
  | none => { workbench with current_code := some change }

/-- The apostrophe character, kept out of string literals. -/
def apos : String := String.singleton (Char.ofNat 39)

/-- The fixed suggestion text built by generate_code_suggestion: the template
line followed by the placeholder comment appended with strcat. -/
def genSuggestion : String :=
  "Here" ++ apos ++ "s a suggestion based on your request:\n" ++
    "/* Your generated code here */"

/-- generate_code_suggestion: builds the fixed template suggestion (the memory
argument is unused by the placeholder) and writes it into the workbench via
update_code_suggestion. -/
def generate_code_suggestion (workbench : CodeWorkbench) (memory : CodeMemory) : CodeWorkbench :=
  update_code_suggestion workbench genSuggestion

/-- process_code_request: delegates to generate_code_suggestion. -/
def process_code_request (workbench : CodeWorkbench) (memory : CodeMemory) : CodeWorkbench :=
  generate_code_suggestion workbench memory

/-- The fixed marker prepended by refine_code_suggestion. -/
def refineMarker : String := "Refined code suggestion:\n"

/-- refine_code_suggestion: prepends the fixed marker to the existing
suggested_code and writes the result back via update_code_suggestion. -/
def refine_code_suggestion (workbench : CodeWorkbench) (memory : CodeMemory) : CodeWorkbench :=
  update_code_suggestion workbench (refineMarker ++ cStr workbench.suggested_code)

/-- One entry of the (mocked) blockchain ledger. -/
structure LedgerEntry where
  content : String
  description : String
deriving DecidableEq

/-- commit_code_to_blockchain: records the content/description pair (a printf
in the mock); modelled as appending one ledger entry. -/
def commit_code_to_blockchain (ledger : List LedgerEntry) (code description : String) :
    List LedgerEntry :=
  ledger ++ [{ content := code, description := description }]

/-- The pipeline steps a session can execute, in the order the straight-line
body of orchestrate_coding_session (and its caller main) performs them. -/
inductive SessionStep where
  | wbInit (request : String)
  | generate
  | refine
  | ledgerCommit (content description : String)
  | close
deriving DecidableEq

/-- Recognizes a ledger-commit step. -/
def SessionStep.isCommit : SessionStep → Bool
  | SessionStep.ledgerCommit _ _ => true
  | _ => false

/-- Result of a session: the pattern store as left behind, the ledger, and the
ordered trace of executed steps. The workbench itself is freed by the session
and does not survive. -/
structure SessionResult where
  memory : CodeMemory
  ledger : List LedgerEntry
  trace : List SessionStep
deriving DecidableEq

/-- orchestrate_coding_session: process_code_request (generate), then
refine_code_suggestion, then commit_code_to_blockchain of the final
suggested_code with description "Final Suggestion", then the four frees that
close the workbench. The store pointer is never written through. -/
def orchestrate_coding_session (workbench : CodeWorkbench) (memory : CodeMemory)
    (ledger : List LedgerEntry) : SessionResult :=
  let wb1 := process_code_request workbench memory
  let wb2 := refine_code_suggestion wb1 memory
  let ledger2 := commit_code_to_blockchain ledger (cStr wb2.suggested_code) "Final Suggestion"
  { memory := memory
    ledger := ledger2
    trace := [SessionStep.generate, SessionStep.refine,
      SessionStep.ledgerCommit (cStr wb2.suggested_code) "Final Suggestion",
      SessionStep.close] }

/-- One full session as main performs it: init_code_workbench on the request,
then orchestrate_coding_session on the fresh workbench and the shared store. -/
def runSession (request : String) (memory : CodeMemory) (ledger : List LedgerEntry) :
    SessionResult :=
  let workbench := init_code_workbench request
  let r := orchestrate_coding_session workbench memory ledger
  { r with trace := SessionStep.wbInit request :: r.trace }

/-- Store creation as main performs it (patterns = NULL, count = 0, capacity
configured; main configures 10). -/
def createCodeMemory (initialCapacity : Nat) : CodeMemory :=
  { patterns := [], count := 0, capacity := initialCapacity }

/-- A sequence of add_pattern_to_memory calls, first element added first. -/
def addAll (memory : CodeMemory) : List CodePattern → CodeMemory
  | [] => memory
  | p :: ps => addAll (add_pattern_to_memory memory p) ps

/-- Replace the element at an index by its image under f (identity when the
index is out of range). -/
def modifyNth {α : Type} (f : α → α) : Nat → List α → List α
  | _, [] => []
  | 0, a :: as => f a :: as
  | n + 1, a :: as => a :: modifyNth f n as

/-- The mutating store operations: ingestion of a pattern, or in-place
complexity analysis of the pattern at an index. -/
inductive StoreOp where
  | add (pattern : CodePattern)
  | analyze (index : Nat)
deriving DecidableEq

/-- Apply one store operation. -/
def applyStoreOp (memory : CodeMemory) : StoreOp → CodeMemory
  | StoreOp.add p => add_pattern_to_memory memory p
  | StoreOp.analyze i =>
    { memory with patterns := modifyNth analyze_code_complexity i memory.patterns }

/-- Apply a sequence of store operations in order. -/
def applyStoreOps (memory : CodeMemory) : List StoreOp → CodeMemory
  | [] => memory
  | op :: ops => applyStoreOps (applyStoreOp memory op) ops

/-! ## Basic facts about the store operations -/

/-- Adding always appends the pattern at the end of the used prefix. -/
lemma add_patterns (m : CodeMemory) (p : CodePattern) :
    (add_pattern_to_memory m p).patterns = m.patterns ++ [p] := by
  simp only [add_pattern_to_memory]
  split <;> rfl

/-- Adding always increments the count by one. -/
lemma add_count (m : CodeMemory) (p : CodePattern) :
    (add_pattern_to_memory m p).count = m.count + 1 := by
  simp only [add_pattern_to_memory]
  split <;> rfl

/-- Adding doubles the capacity exactly when the store was full. -/
lemma add_capacity (m : CodeMemory) (p : CodePattern) :
    (add_pattern_to_memory m p).capacity =
      (if m.count = m.capacity then m.capacity * 2 else m.capacity) := by
  simp only [add_pattern_to_memory]
  split <;> simp_all

/-- While the inserted elements still fit in the current capacity, a batch of
adds appends them all, adds their number to the count, and never touches the
capacity. -/
lemma addAll_le_capacity : ∀ (ps : List CodePattern) (m : CodeMemory),
    m.count + ps.length ≤ m.capacity →
    (addAll m ps).patterns = m.patterns ++ ps ∧
    (addAll m ps).count = m.count + ps.length ∧
    (addAll m ps).capacity = m.capacity := by
  intro ps
  induction ps with
  | nil => intro m h; simp [addAll]
  | cons p ps ih =>
    intro m h
    have hne : m.count ≠ m.capacity := by
      simp only [List.length_cons] at h; omega
    have e1 := add_count m p
    have e2 := add_capacity m p
    rw [if_neg hne] at e2
    have hrec : (add_pattern_to_memory m p).count + ps.length ≤
        (add_pattern_to_memory m p).capacity := by
      rw [e1, e2]; simp only [List.length_cons] at h; omega
    obtain ⟨g1, g2, g3⟩ := ih (add_pattern_to_memory m p) hrec
    refine ⟨?_, ?_, ?_⟩
    · simp only [addAll]; rw [g1, add_patterns]; simp
    · simp only [addAll]; rw [g2, e1]; simp only [List.length_cons]; omega
    · simp only [addAll]; rw [g3, e2]

/-- Inserting exactly one element more than the capacity admits doubles the
capacity exactly once, at the final insertion. -/
lemma addAll_exact_overflow : ∀ (ps : List CodePattern) (m : CodeMemory),
    m.count ≤ m.capacity →
    m.count + ps.length = m.capacity + 1 →
    (addAll m ps).capacity = m.capacity * 2 ∧
    (addAll m ps).count = m.capacity + 1 := by
  intro ps
  induction ps with
  | nil =>
    intro m h1 h2
    exfalso
    simp only [List.length_nil] at h2
    omega
  | cons p ps ih =>
    intro m h1 h2
    by_cases hc : m.count = m.capacity
    · have hps : ps.length = 0 := by
        simp only [List.length_cons] at h2; omega
      have hnil : ps = [] := List.length_eq_zero.mp hps
      subst hnil
      have e1 := add_count m p
      have e2 := add_capacity m p
      rw [if_pos hc] at e2
      simp only [addAll]
      exact ⟨e2, by rw [e1]; omega⟩
    · have e1 := add_count m p
      have e2 := add_capacity m p
      rw [if_neg hc] at e2
      obtain ⟨g1, g2⟩ := ih (add_pattern_to_memory m p)
        (by rw [e1, e2]; omega)
        (by rw [e1, e2]; simp only [List.length_cons] at h2; omega)
      rw [e2] at g1 g2
      exact ⟨g1, g2⟩

/-- A batch of adds appends the whole batch in order, for every store. -/
lemma addAll_patterns_append : ∀ (ps : List CodePattern) (m : CodeMemory),
    (addAll m ps).patterns = m.patterns ++ ps := by
  intro ps
  induction ps with
  | nil => intro m; simp [addAll]
  | cons p ps ih =>
    intro m
    simp only [addAll]
    rw [ih, add_patterns]
    simp

/-- The marker prepended by refinement is non-empty, so prepending it always
changes the string. -/
lemma refineMarker_append_ne (s : String) : refineMarker ++ s ≠ s := by
  intro h
  have hlen := congrArg String.length h
  rw [String.length_append] at hlen
  have hm : 0 < refineMarker.length := by decide
  omega

/-- One store operation preserves the strengthened store invariant
(positive capacity and count within capacity). -/
lemma applyStoreOp_invariant (m : CodeMemory) (op : StoreOp)
    (h1 : 1 ≤ m.capacity) (h2 : m.count ≤ m.capacity) :
    1 ≤ (applyStoreOp m op).capacity ∧
    (applyStoreOp m op).count ≤ (applyStoreOp m op).capacity := by
  cases op with
  | add p =>
    have e1 := add_count m p
    have e2 := add_capacity m p
    simp only [applyStoreOp]
    rw [e1, e2]
    by_cases hc : m.count = m.capacity
    · rw [if_pos hc]; omega
    · rw [if_neg hc]; omega
  | analyze i =>
    exact ⟨h1, h2⟩

/-! ## Concrete inputs used by witnesses and counterexamples -/

/-- A concrete pattern for concrete evaluations. -/
def demoPattern : CodePattern := create_code_pattern "int a;" "c" 1

/-- A concrete workbench whose suggestion slot holds "S". -/
def demoWorkbench : CodeWorkbench :=
  { code_request := "r", current_code := none, suggested_code := some "S" }

/-- A concrete operation sequence mixing ingestion and analysis. -/
def demoOps : List StoreOp :=
  [StoreOp.add demoPattern, StoreOp.analyze 0, StoreOp.add demoPattern]

/-! ## The claims -/

/-- Claim C1: for every request, store and prior ledger, one session executes
exactly the five pipeline steps once and in order (workbench creation,
generation, refinement, ledger commit with description "Final Suggestion",
close), the ledger gains exactly that one commit whose content is the refined
suggestion (the marker prepended to the generated suggestion), and the trace
contains exactly one commit step. -/
theorem session_runs_five_steps_once (request : String) (memory : CodeMemory)
    (ledger : List LedgerEntry) :
    (runSession request memory ledger).trace =
      [SessionStep.wbInit request, SessionStep.generate, SessionStep.refine,
        SessionStep.ledgerCommit (refineMarker ++ genSuggestion) "Final Suggestion",
        SessionStep.close] ∧
    (runSession request memory ledger).ledger =
      ledger ++ [{ content := refineMarker ++ genSuggestion,
                   description := "Final Suggestion" }] ∧
    ((runSession request memory ledger).trace.filter SessionStep.isCommit).length = 1 ∧
    (refine_code_suggestion (process_code_request (init_code_workbench request) memory)
        memory).suggested_code = some (refineMarker ++ genSuggestion) :=
  ⟨rfl, rfl, rfl, rfl⟩

/-- Claim C2: starting from an empty store of initial capacity C at least 1,
inserting C+1 patterns leaves the capacity at exactly 2C; any batch of at most
C insertions leaves the capacity at C (no growth before exhaustion); and each
add appends at the end, doubling the capacity exactly when count equals
capacity. -/
theorem store_growth_law (C : Nat) (hC : 1 ≤ C) (ps : List CodePattern)
    (hps : ps.length = C + 1) :
    (addAll (createCodeMemory C) ps).capacity = 2 * C ∧
    (addAll (createCodeMemory C) ps).count = C + 1 ∧
    (∀ qs : List CodePattern, qs.length ≤ C →
      (addAll (createCodeMemory C) qs).capacity = C) ∧
    (∀ (m : CodeMemory) (p : CodePattern),
      (add_pattern_to_memory m p).patterns = m.patterns ++ [p] ∧
      (add_pattern_to_memory m p).capacity =
        (if m.count = m.capacity then m.capacity * 2 else m.capacity)) := by
  obtain ⟨g1, g2⟩ := addAll_exact_overflow ps (createCodeMemory C)
    (by simp [createCodeMemory]) (by simp [createCodeMemory, hps])
  refine ⟨?_, ?_, ?_, ?_⟩
  · rw [g1]; simp only [createCodeMemory]; omega
  · rw [g2]; rfl
  · intro qs hqs
    exact (addAll_le_capacity qs (createCodeMemory C)
      (by simp [createCodeMemory, hqs])).2.2
  · intro m p
    exact ⟨add_patterns m p, add_capacity m p⟩

/-- Witness for C2 at C = 2 with three insertions: the capacity becomes 4. -/
theorem store_growth_law_witness :
    (addAll (createCodeMemory 2) [demoPattern, demoPattern, demoPattern]).capacity = 2 * 2 :=
  (store_growth_law 2 (by decide) [demoPattern, demoPattern, demoPattern] rfl).1

/-- Claim C3: refinement is not idempotent. If the suggestion slot holds S,
one refine call leaves the fixed marker prepended to S, a second call nests
the marker twice, and neither call reaches a fixed point (the marker is
non-empty, so each call strictly changes the suggestion). -/
theorem refine_not_idempotent (wb : CodeWorkbench) (memory : CodeMemory) (S : String)
    (h : wb.suggested_code = some S) :
    (refine_code_suggestion wb memory).suggested_code = some (refineMarker ++ S) ∧
    (refine_code_suggestion (refine_code_suggestion wb memory) memory).suggested_code =
      some (refineMarker ++ (refineMarker ++ S)) ∧
    refineMarker ++ S ≠ S ∧
    refineMarker ++ (refineMarker ++ S) ≠ refineMarker ++ S :=
  ⟨by simp [refine_code_suggestion, update_code_suggestion, cStr, h],
   by simp [refine_code_suggestion, update_code_suggestion, cStr, h],
   refineMarker_append_ne S,
   refineMarker_append_ne (refineMarker ++ S)⟩

/-- Witness for C3 on a concrete workbench holding suggestion "S". -/
theorem refine_not_idempotent_witness :
    (refine_code_suggestion demoWorkbench (createCodeMemory 10)).suggested_code =
      some (refineMarker ++ "S") ∧
    (refine_code_suggestion (refine_code_suggestion demoWorkbench (createCodeMemory 10))
        (createCodeMemory 10)).suggested_code =
      some (refineMarker ++ (refineMarker ++ "S")) ∧
    refineMarker ++ "S" ≠ "S" ∧
    refineMarker ++ (refineMarker ++ "S") ≠ refineMarker ++ "S" :=
  refine_not_idempotent demoWorkbench (createCodeMemory 10) "S" rfl

/-- Claim C4: a full session leaves the shared pattern store untouched: the
store after the session equals the store before it, so its count, capacity and
full pattern list (hence every snippet, language and complexity) are
preserved. -/
theorem session_preserves_store (request : String) (memory : CodeMemory)
    (ledger : List LedgerEntry) :
    (runSession request memory ledger).memory = memory ∧
    (runSession request memory ledger).memory.count = memory.count ∧
    (runSession request memory ledger).memory.capacity = memory.capacity ∧
    (runSession request memory ledger).memory.patterns = memory.patterns :=
  ⟨rfl, rfl, rfl, rfl⟩

/-- Claim C5: generation always succeeds: for every workbench and store it
produces the fixed template text, which is non-empty, mentions the request
context, and is written into suggested_code via update_code_suggestion; the
request field itself is untouched. -/
theorem generate_always_succeeds (wb : CodeWorkbench) (memory : CodeMemory) :
    generate_code_suggestion wb memory = update_code_suggestion wb genSuggestion ∧
    (generate_code_suggestion wb memory).suggested_code = some genSuggestion ∧
    genSuggestion ≠ "" ∧
    (∃ pre post : String, genSuggestion = pre ++ "your request" ++ post) ∧
    (generate_code_suggestion wb memory).code_request = wb.code_request :=
  ⟨rfl, rfl, by decide,
   ⟨"Here" ++ apos ++ "s a suggestion based on ", ":\n/* Your generated code here */",
    by decide⟩,
   rfl⟩

/-- Claim C6 (evidence of the divergence): the workbench operations are total
functions with no error result at all — update_code_suggestion and
commit_code_change unconditionally mutate whatever workbench value they are
handed and return no StateMisuse (or any other) error, so a call made after
the session frees the workbench cannot be rejected. -/
theorem workbench_ops_have_no_error_path :
    (update_code_suggestion (init_code_workbench "Create a function to sort an array")
        "x").suggested_code = some "x" ∧
    (commit_code_change (init_code_workbench "Create a function to sort an array")
        "x").current_code = some "x" :=
  ⟨rfl, rfl⟩

/-- Claim C7 (amended): with the invariant strengthened to positive capacity —
satisfied by every configured initial capacity of at least 1, such as the 10
that main configures — every sequence of store operations (add, analyze)
preserves capacity at least count, and capacity stays positive. -/
theorem store_invariant_preserved (m : CodeMemory) (ops : List StoreOp)
    (h1 : 1 ≤ m.capacity) (h2 : m.count ≤ m.capacity) :
    1 ≤ (applyStoreOps m ops).capacity ∧
    (applyStoreOps m ops).count ≤ (applyStoreOps m ops).capacity := by
  induction ops generalizing m with
  | nil => exact ⟨h1, h2⟩
  | cons op ops ih =>
    obtain ⟨g1, g2⟩ := applyStoreOp_invariant m op h1 h2
    simpa only [applyStoreOps] using ih (applyStoreOp m op) g1 g2

/-- Witness for the amended C7 on the configured capacity 10 and a concrete
operation sequence. -/
theorem store_invariant_preserved_witness :
    1 ≤ (applyStoreOps (createCodeMemory 10) demoOps).capacity ∧
    (applyStoreOps (createCodeMemory 10) demoOps).count ≤
      (applyStoreOps (createCodeMemory 10) demoOps).capacity :=
  store_invariant_preserved (createCodeMemory 10) demoOps (by decide) (by decide)

/-- Counterexample to C7 as stated: a store created with configured initial
capacity 0 satisfies capacity at least count, yet a single add leaves count 1
above capacity 0 — the add operation does not preserve the bare invariant on
that state. -/
theorem store_invariant_counterexample :
    (createCodeMemory 0).count ≤ (createCodeMemory 0).capacity ∧
    ¬ ((add_pattern_to_memory (createCodeMemory 0) demoPattern).count ≤
        (add_pattern_to_memory (createCodeMemory 0) demoPattern).capacity) := by
  decide

/-- Claim C8: commit_code_change sets current_code when it is empty and
appends by plain concatenation otherwise; on a fresh workbench, committing
"a" then "b" yields exactly the concatenation. -/
theorem commit_change_concatenates (wb : CodeWorkbench) (t a b r : String) :
    (wb.current_code = none → (commit_code_change wb t).current_code = some t) ∧
    (∀ c : String, wb.current_code = some c →
      (commit_code_change wb t).current_code = some (c ++ t)) ∧
    (commit_code_change (commit_code_change (init_code_workbench r) a) b).current_code =
      some (a ++ b) := by
  refine ⟨?_, ?_, rfl⟩
  · intro h; simp [commit_code_change, h]
  · intro c h; simp [commit_code_change, h]

/-- Witness for C8: on a fresh workbench the first commit sets "a" and the
second appends "b". -/
theorem commit_change_concatenates_witness :
    ((commit_code_change (init_code_workbench "req") "a").current_code = some "a") ∧
    ((commit_code_change (commit_code_change (init_code_workbench "req") "a")
        "b").current_code = some ("a" ++ "b")) :=
  ⟨(commit_change_concatenates (init_code_workbench "req") "a" "a" "b" "req").1 rfl,
   (commit_change_concatenates (init_code_workbench "req") "t" "a" "b" "req").2.2⟩

/-- Claim C9: any sequence of adds, applied to any store, yields the patterns
in exactly insertion order appended after the previously stored ones, and a
single add never changes or reorders the existing elements. -/
theorem insertion_order_preserved (m : CodeMemory) (ps : List CodePattern) :
    (addAll m ps).patterns = m.patterns ++ ps ∧
    (∀ p : CodePattern, (add_pattern_to_memory m p).patterns = m.patterns ++ [p]) :=
  ⟨addAll_patterns_append ps m, fun p => add_patterns m p⟩

/-- Claim C10: the pipeline never calls commit_code_change: current_code is
absent at creation and stays absent after generation and after refinement
(update_code_suggestion never touches it), up to the close that frees the
workbench. -/
theorem pipeline_never_commits_change (request : String) (memory : CodeMemory) :
    (init_code_workbench request).current_code = none ∧
    (process_code_request (init_code_workbench request) memory).current_code = none ∧
    (refine_code_suggestion (process_code_request (init_code_workbench request) memory)
        memory).current_code = none ∧
    (∀ (wb : CodeWorkbench) (s : String),
      (update_code_suggestion wb s).current_code = wb.current_code) :=
  ⟨rfl, rfl, rfl, fun _ _ => rfl⟩
